import Mathlib

/-!
Shallow embedding of the neural-firewall pipeline of the Neuro-Privacy Guard
backend (`backend/app`): the permission gate, intent classifier, threat
detector, privacy engine, schema validation and spectral feature extraction.
Python floats are modelled as `ℚ` where the code is exact arithmetic and as
`ℝ` where it uses transcendental functions (FFT); Python dicts over string
keys are modelled as association lists with first-occurrence lookup and
in-place update, matching dict semantics for the distinct literal keys used
by the code.  Randomness (`np.random.laplace`) is modelled by an explicit
noise-realization parameter; `uuid` identifiers and wall-clock timestamps are
environmental and are omitted from the embedded records.
-/

namespace NeuroGuard

/-- A Python `Dict[str, float]` as an association list (keys unique in all
uses by the code). -/
abbrev DataMap := List (String × ℚ)

/-- `dict.get(key, default)`: value of the first matching key, else the
default. -/
def dataGet : DataMap → String → ℚ → ℚ
  | [], _, d => d
  | (k, v) :: rest, key, d => if k = key then v else dataGet rest key d

/-- `dict[key] = value`: replace the value at an existing key in place,
otherwise append the new key at the end (Python dict insertion order). -/
def dictSet : DataMap → String → ℚ → DataMap
  | [], key, v => [(key, v)]
  | (k, w) :: rest, key, v =>
      if k = key then (k, v) :: rest else (k, w) :: dictSet rest key v

/-- The value stored in `self.permissions[app_id]` by `PermissionGate`:
`{'app_name': ..., 'granted': [...]}` (`ai_firewall.py` lines 174-178). -/
structure AppRecord where
  app_name : String
  granted : List String
deriving Repr, DecidableEq

/-- One entry of `PermissionGate.audit_log` (`ai_firewall.py` lines 184-190
and 199-205); the wall-clock `timestamp` field is environmental and omitted. -/
structure AuditEntry where
  app_id : String
  app_name : String
  action : String
  permission : String
deriving Repr, DecidableEq

/-- The mutable state of `PermissionGate` (`ai_firewall.py` lines 167-170). -/
structure GateState where
  permissions : List (String × AppRecord)
  audit_log : List AuditEntry
deriving Repr, DecidableEq

/-- Lookup of `self.permissions[app_id]` (first matching key). -/
def lookupApp : List (String × AppRecord) → String → Option AppRecord
  | [], _ => none
  | (k, v) :: rest, a => if k = a then some v else lookupApp rest a

/-- `self.permissions[app_id] = record`: in-place update of an existing key,
append when absent. -/
def setApp : List (String × AppRecord) → String → AppRecord → List (String × AppRecord)
  | [], a, r => [(a, r)]
  | (k, v) :: rest, a, r =>
      if k = a then (k, r) :: rest else (k, v) :: setApp rest a r

/-- `PermissionGate.grant_permission` (`ai_firewall.py` lines 172-190):
create the app record on first use, then append the permission and an audit
entry only when the permission is not already granted. -/
def grant_permission (s : GateState) (app_id app_name permission_type : String) :
    GateState :=
  let perms1 :=
    if (lookupApp s.permissions app_id).isNone then
      s.permissions ++ [(app_id, ⟨app_name, []⟩)]
    else s.permissions
  let r := (lookupApp perms1 app_id).getD ⟨app_name, []⟩
  if permission_type ∈ r.granted then
    { permissions := perms1, audit_log := s.audit_log }
  else
    { permissions := setApp perms1 app_id ⟨r.app_name, r.granted ++ [permission_type]⟩,
      audit_log := s.audit_log ++ [⟨app_id, app_name, "grant", permission_type⟩] }

/-- Python `list.remove`: delete the first occurrence only. -/
def removeFirst : List String → String → List String
  | [], _ => []
  | x :: xs, p => if x = p then xs else x :: removeFirst xs p

/-- `PermissionGate.revoke_permission` (`ai_firewall.py` lines 192-205):
remove the first occurrence of a present permission and append an audit
entry; no-op otherwise. -/
def revoke_permission (s : GateState) (app_id permission_type : String) : GateState :=
  match lookupApp s.permissions app_id with
  | none => s
  | some r =>
      if permission_type ∈ r.granted then
        { permissions :=
            setApp s.permissions app_id ⟨r.app_name, removeFirst r.granted permission_type⟩,
          audit_log := s.audit_log ++ [⟨app_id, r.app_name, "revoke", permission_type⟩] }
      else s

/-- `PermissionGate.check_permission` (`ai_firewall.py` lines 207-211). -/
def check_permission (s : GateState) (app_id permission_type : String) : Bool :=
  match lookupApp s.permissions app_id with
  | none => false
  | some r => decide (permission_type ∈ r.granted)

/-- `PermissionGate.filter_data` (`ai_firewall.py` lines 213-251): no record
gives only the motor-intent flag; otherwise fields are inserted per granted
permission, and a granted `full_spectrum` replaces the accumulated dict with
a copy of the full input. -/
def filter_data (s : GateState) (app_id : String) (data : DataMap) (intent : String) :
    DataMap :=
  match lookupApp s.permissions app_id with
  | none => [("motor_intent", if intent = "intentional" then 1 else 0)]
  | some r =>
      let granted := r.granted
      let f0 : DataMap := []
      let f1 :=
        if "motor_intent" ∈ granted then
          dictSet (dictSet f0 "motor_intent" (if intent = "intentional" then 1 else 0))
            "beta" (dataGet data "beta" 0)
        else f0
      let f2 :=
        if "focus_level" ∈ granted then
          dictSet f1 "beta_alpha_ratio" (dataGet data "beta_alpha_ratio" 0)
        else f1
      let f3 :=
        if "emotional_state" ∈ granted then
          dictSet (dictSet f2 "theta" (dataGet data "theta" 0))
            "alpha" (dataGet data "alpha" 0)
        else f2
      let f4 := if "full_spectrum" ∈ granted then data else f3
      f4

/-- The method-call form of `filter_data`: the body of the Python method
only reads `self.permissions` and never assigns to `self.permissions` or
`self.audit_log`, so the state-threaded translation returns the pre-state. -/
def filter_data_method (s : GateState) (app_id : String) (data : DataMap)
    (intent : String) : DataMap × GateState :=
  (filter_data s app_id data intent, s)

/-- The `1e-10` stabilizer used in the ratio denominators
(`ai_firewall.py` lines 81-82). -/
def ratio_eps : ℚ := 1 / 10000000000

/-- `IntentClassifier._rule_based_classify` (`ai_firewall.py` lines 60-132):
sequential score/reasons accumulation over the seven conditions, then the
three-way decision.  The `delta` band is read by the source but unused. -/
def rule_based_classify (features : DataMap) : String × ℚ × String :=
  let beta := dataGet features "beta" 0
  let alpha := dataGet features "alpha" 0
  let theta := dataGet features "theta" 0
  let gamma := dataGet features "gamma" 0
  let bar := beta / (alpha + ratio_eps)
  let tar := theta / (alpha + ratio_eps)
  let s0 : ℤ := 0
  let r0 : List String := []
  let s1 := if beta > 15 then s0 + 2 else s0
  let r1 := if beta > 15 then r0 ++ ["strong beta (focus)"] else r0
  let s2 := if bar > 3/2 then s1 + 1 else s1
  let r2 := if bar > 3/2 then r1 ++ ["high beta/alpha ratio"] else r1
  let s3 := if gamma > 10 ∧ gamma < 30 then s2 + 1 else s2
  let r3 := if gamma > 10 ∧ gamma < 30 then r2 ++ ["controlled gamma"] else r2
  let s4 := if theta > 20 then s3 - 2 else s3
  let r4 := if theta > 20 then r3 ++ ["elevated theta (emotional)"] else r3
  let s5 := if gamma > 40 then s4 - 2 else s4
  let r5 := if gamma > 40 then r4 ++ ["high gamma (stress)"] else r4
  let s6 := if tar > 1 then s5 - 1 else s5
  let r6 := if tar > 1 then r5 ++ ["high theta/alpha"] else r5
  let s7 := if beta < 10 then s6 - 1 else s6
  let r7 := if beta < 10 then r6 ++ ["low beta"] else r6
  if s7 ≥ 2 then
    ("intentional", min (9/10 : ℚ) (1/2 + (s7 : ℚ) * (1/10)),
      "Intentional command detected: " ++ ", ".intercalate (r7.take 2))
  else if s7 ≤ -2 then
    ("subconscious", min (9/10 : ℚ) (1/2 + ((s7.natAbs : ℕ) : ℚ) * (1/10)),
      "Subconscious activity detected: " ++ ", ".intercalate (r7.take 2))
  else
    ("neutral", 3/5, "Neutral brain state, no clear intent")

/-- The integer score of the seven rule conditions, written as the spec
states them: a sum of independent per-condition deltas. -/
def ruleScore (features : DataMap) : ℤ :=
  (if dataGet features "beta" 0 > 15 then 2 else 0)
  + (if dataGet features "beta" 0 / (dataGet features "alpha" 0 + ratio_eps) > 3/2
      then 1 else 0)
  + (if dataGet features "gamma" 0 > 10 ∧ dataGet features "gamma" 0 < 30
      then 1 else 0)
  + (if dataGet features "theta" 0 > 20 then -2 else 0)
  + (if dataGet features "gamma" 0 > 40 then -2 else 0)
  + (if dataGet features "theta" 0 / (dataGet features "alpha" 0 + ratio_eps) > 1
      then -1 else 0)
  + (if dataGet features "beta" 0 < 10 then -1 else 0)

/-- One record appended by `ThreatDetector.detect_threats`
(`ai_firewall.py` lines 276-316); the `uuid` threat id and wall-clock
timestamp are environmental and omitted. -/
structure Threat where
  threat_type : String
  level : String
  description : String
  app_id : String
  mitigated : Bool
deriving Repr, DecidableEq

/-- `ThreatDetector.detect_threats` (`ai_firewall.py` lines 261-316), with
the threat log threaded explicitly: returns the freshly built alert list
and the log with those alerts appended. -/
def detect_threats (log : List Threat) (app_id : String) (requested : List String)
    (request_frequency : ℤ) : List Threat × List Threat :=
  let t0 : List Threat := []
  let t1 :=
    if "full_spectrum" ∈ requested then
      t0 ++ [⟨"excessive_permissions", "high",
        "App " ++ app_id ++ " requesting full neural spectrum access", app_id, false⟩]
    else t0
  let t2 :=
    if request_frequency > 10 then
      t1 ++ [⟨"data_harvesting", "medium",
        "Unusual request frequency: " ++ toString request_frequency ++ "/sec",
        app_id, false⟩]
    else t1
  let t3 :=
    if "emotional_state" ∈ requested ∧ "motor_intent" ∉ requested then
      t2 ++ [⟨"emotional_surveillance", "critical",
        "App requesting emotional data without primary functionality need",
        app_id, false⟩]
    else t2
  (t3, log ++ t3)

/-- The per-band loop of `PrivacyEngine.privatize_frequency_bands`
(`privacy_engine.py` lines 64-71): the `i`-th Laplace draw at the given
scale is added to the `i`-th band power and the sum is clamped at 0.
`lap scale i` is the realization of the `i`-th `np.random.laplace(0, scale)`
draw of the call. -/
def privatizeList (lap : ℚ → ℕ → ℚ) (scale : ℚ) : DataMap → ℕ → DataMap
  | [], _ => []
  | (name, power) :: rest, i =>
      (name, max 0 (power + lap scale i)) :: privatizeList lap scale rest (i + 1)

/-- `PrivacyEngine.privatize_frequency_bands` (`privacy_engine.py` lines
47-73): effective epsilon is `epsilon * (privacy_level + 0.1)` and each band
gets one independent Laplace draw at scale `1 / effective_epsilon`. -/
def privatize_frequency_bands (epsilon : ℚ) (lap : ℚ → ℕ → ℚ) (bands : DataMap)
    (privacy_level : ℚ) : DataMap :=
  let effective_epsilon := epsilon * (privacy_level + 1/10)
  privatizeList lap (1 / effective_epsilon) bands 0

/-- Whether a key is present in the data map (`field in protected_data`). -/
def containsKey : DataMap → String → Bool
  | [], _ => false
  | (k, _) :: rest, key => if k = key then true else containsKey rest key

/-- `protected_data[field] = protected_data[field] + noise`: add to the
value at the first occurrence of an existing key. -/
def dictAdd : DataMap → String → ℚ → DataMap
  | [], _, _ => []
  | (k, v) :: rest, key, w =>
      if k = key then (k, v + w) :: rest else (k, v) :: dictAdd rest key w

/-- The field loop of `PrivacyEngine.apply_privacy` (`privacy_engine.py`
lines 99-103): fields present in the data each receive one fresh unclamped
Laplace draw; `i` counts the draws made so far. -/
def applyFields (lap : ℚ → ℕ → ℚ) (scale : ℚ) : List String → ℕ → DataMap → DataMap
  | [], _, d => d
  | f :: fs, i, d =>
      if containsKey d f then
        applyFields lap scale fs (i + 1) (dictAdd d f (lap scale i))
      else
        applyFields lap scale fs i d

/-- `PrivacyEngine.apply_privacy` (`privacy_engine.py` lines 75-105): the
default field set is every (numeric) field of the data, the effective
epsilon is `epsilon * (privacy_level + 0.1)`, and noise is added with no
clamping. -/
def apply_privacy (epsilon : ℚ) (lap : ℚ → ℕ → ℚ) (data : DataMap)
    (privacy_level : ℚ) (protect_fields : Option (List String)) : DataMap :=
  let fields := protect_fields.getD (data.map Prod.fst)
  let effective_epsilon := epsilon * (privacy_level + 1/10)
  applyFields lap (1 / effective_epsilon) fields 0 data

/-- `EEGSignalInput.validate_channels` (`schemas.py` lines 26-31): the only
validation performed on the channel map is rejection of an empty map. -/
def validate_channels (v : List (String × List ℚ)) :
    Except String (List (String × List ℚ)) :=
  if v = [] then Except.error "At least one channel required" else Except.ok v

/-- The power spectrum value `np.abs(fft(data))**2` at bin `k`
(`signal_processing.py` lines 104-108): squared magnitude of the discrete
Fourier transform `X_k = sum_j x_j exp(-2 pi i k j / n)`. -/
noncomputable def dftPower (data : List ℝ) (k : ℕ) : ℝ :=
  Complex.normSq (∑ j ∈ Finset.range data.length,
    ((data.getD j 0 : ℝ) : ℂ) *
      Complex.exp (-2 * (Real.pi : ℂ) * Complex.I * (k : ℂ) * (j : ℂ) /
        (data.length : ℂ)))

/-- `scipy.fft.fftfreq(n, 1/sampling_rate)` at index `k`: frequency
`k * sr / n` on the first (non-negative) half of the spectrum and
`(k - n) * sr / n` on the second. -/
def fftfreq (n : ℕ) (sr : ℚ) (k : ℕ) : ℚ :=
  if 2 * k < n then (k : ℚ) * sr / n else ((k : ℚ) - n) * sr / n

/-- The spectral bins of an `n`-point transform whose frequency lies in the
inclusive band `[low, high]` (`signal_processing.py` line 113:
`np.where((freqs >= low) & (freqs <= high))`). -/
def bandIdx (n : ℕ) (sr low high : ℚ) : Finset ℕ :=
  (Finset.range n).filter (fun k => low ≤ fftfreq n sr k ∧ fftfreq n sr k ≤ high)

/-- The per-channel band contribution (`signal_processing.py` lines
111-118): the mean power over the band's bins when the band has at least
one bin, and nothing (no list append) otherwise. -/
noncomputable def channelBandPower (sr : ℚ) (data : List ℝ) (low high : ℚ) :
    Option ℝ :=
  if (bandIdx data.length sr low high).Nonempty then
    some ((∑ k ∈ bandIdx data.length sr low high, dftPower data k) /
      (bandIdx data.length sr low high).card)
  else none

/-- `SignalProcessor.bands` (`signal_processing.py` lines 28-34). -/
def bands : List (String × ℚ × ℚ) :=
  [("delta", 1/2, 4), ("theta", 4, 8), ("alpha", 8, 13), ("beta", 13, 30),
   ("gamma", 30, 100)]

/-- The cross-channel average for one band (`signal_processing.py` lines
120-124): mean of the per-channel contributions, `0.0` when no channel
contributed. -/
noncomputable def extract_band (sr : ℚ) (channels : List (List ℝ)) (low high : ℚ) :
    ℝ :=
  let powers := channels.filterMap (fun c => channelBandPower sr c low high)
  if powers.isEmpty then 0 else powers.sum / powers.length

/-- `SignalProcessor.extract_frequency_bands` (`signal_processing.py` lines
87-126), with the channel dict reduced to its ordered list of sample
sequences (channel names do not influence the result). -/
noncomputable def extract_frequency_bands (sr : ℚ) (channels : List (List ℝ)) :
    List (String × ℝ) :=
  bands.map (fun b => (b.1, extract_band sr channels b.2.1 b.2.2))

/-! Helper lemmas about the association-list primitives. -/

theorem lookupApp_append_of_none {ps : List (String × AppRecord)} {a : String}
    (h : lookupApp ps a = none) (r : AppRecord) :
    lookupApp (ps ++ [(a, r)]) a = some r := by
  induction ps with
  | nil => simp [lookupApp]
  | cons hd tl ih =>
      obtain ⟨k, v⟩ := hd
      by_cases hk : k = a
      · simp [lookupApp, hk] at h
      · simp only [lookupApp, List.cons_append, if_neg hk] at h ⊢
        exact ih h

theorem lookupApp_setApp (ps : List (String × AppRecord)) (a : String) (r : AppRecord) :
    lookupApp (setApp ps a r) a = some r := by
  induction ps with
  | nil => simp [setApp, lookupApp]
  | cons hd tl ih =>
      obtain ⟨k, v⟩ := hd
      by_cases hk : k = a
      · simp [setApp, lookupApp, hk]
      · simp [setApp, lookupApp, if_neg hk, ih]

theorem setApp_append_of_none {ps : List (String × AppRecord)} {a : String}
    (h : lookupApp ps a = none) (r r' : AppRecord) :
    setApp (ps ++ [(a, r)]) a r' = ps ++ [(a, r')] := by
  induction ps with
  | nil => simp [setApp]
  | cons hd tl ih =>
      obtain ⟨k, v⟩ := hd
      by_cases hk : k = a
      · simp [lookupApp, hk] at h
      · simp only [lookupApp, if_neg hk] at h
        simp only [List.cons_append, setApp, if_neg hk, List.append_eq, ih h]

theorem not_mem_removeFirst {l : List String} {p : String} (h : l.Nodup) :
    p ∉ removeFirst l p := by
  induction l with
  | nil => simp [removeFirst]
  | cons x xs ih =>
      rw [List.nodup_cons] at h
      by_cases hx : x = p
      · subst hx
        simpa [removeFirst] using h.1
      · simp only [removeFirst, if_neg hx, List.mem_cons, not_or]
        exact ⟨fun hpx => hx hpx.symm, ih h.2⟩

/-- Every alert built by `detect_threats` carries `mitigated = false`. -/
theorem detect_threats_mitigated_false (log : List Threat) (a : String)
    (req : List String) (f : ℤ) :
    ∀ t ∈ (detect_threats log a req f).1, t.mitigated = false := by
  by_cases h1 : "full_spectrum" ∈ req <;> by_cases h2 : f > 10 <;>
    by_cases h3 : "emotional_state" ∈ req ∧ "motor_intent" ∉ req <;>
    simp [detect_threats, h1, h2, h3]

/--
C7: `grant_permission` is idempotent.  Granting a permission already in the
app's granted set leaves the state (permission table and audit log)
unchanged; granting a new permission appends it once to the granted list and
appends exactly one audit entry with action `grant`, both when the record
exists and when it is created on first use.
-/
theorem grant_permission_idempotent (s : GateState) (a name p : String) :
    (∀ r, lookupApp s.permissions a = some r → p ∈ r.granted →
      grant_permission s a name p = s)
    ∧ (∀ r, lookupApp s.permissions a = some r → p ∉ r.granted →
      grant_permission s a name p =
        ⟨setApp s.permissions a ⟨r.app_name, r.granted ++ [p]⟩,
          s.audit_log ++ [⟨a, name, "grant", p⟩]⟩)
    ∧ (lookupApp s.permissions a = none →
      grant_permission s a name p =
        ⟨s.permissions ++ [(a, ⟨name, [p]⟩)],
          s.audit_log ++ [⟨a, name, "grant", p⟩]⟩) := by
  refine ⟨?_, ?_, ?_⟩
  · intro r hr hp
    simp [grant_permission, hr, hp]
  · intro r hr hp
    simp [grant_permission, hr, hp]
  · intro h
    simp [grant_permission, h, lookupApp_append_of_none h, setApp_append_of_none h]

/-- Witness for C7 at a concrete state. -/
theorem grant_permission_idempotent_witness :
    lookupApp ([("app1", ⟨"App One", ["motor_intent"]⟩)] : List (String × AppRecord))
        "app1" = some ⟨"App One", ["motor_intent"]⟩
    ∧ "motor_intent" ∈ (["motor_intent"] : List String)
    ∧ grant_permission ⟨[("app1", ⟨"App One", ["motor_intent"]⟩)], []⟩
        "app1" "App One" "motor_intent" =
      ⟨[("app1", ⟨"App One", ["motor_intent"]⟩)], []⟩ :=
  ⟨rfl, by decide,
    (grant_permission_idempotent ⟨[("app1", ⟨"App One", ["motor_intent"]⟩)], []⟩
      "app1" "App One" "motor_intent").1 ⟨"App One", ["motor_intent"]⟩ rfl (by decide)⟩

/--
C9 counterexample: the claim quantifies over every state, but `revoke`
translates Python `list.remove`, which removes only the first occurrence.
In the state where app `a` has `emotional_state` granted twice,
`check_permission` still returns `true` immediately after
`revoke_permission`, contradicting the claim as stated.
-/
theorem check_after_revoke_counterexample :
    check_permission
      (revoke_permission
        ⟨[("a", ⟨"A", ["emotional_state", "emotional_state"]⟩)], []⟩
        "a" "emotional_state")
      "a" "emotional_state" = true := by decide

/--
C9 (amended): for every state, immediately after `grant_permission` the
permission checks true; immediately after `revoke_permission` it checks
false provided the app's granted list is duplicate-free (the invariant
`grant` maintains); and `check_permission` is false for any app id with no
permission record.
-/
theorem grant_revoke_check_roundtrip (s : GateState) (a name p : String) :
    check_permission (grant_permission s a name p) a p = true
    ∧ ((∀ r, lookupApp s.permissions a = some r → r.granted.Nodup) →
        check_permission (revoke_permission s a p) a p = false)
    ∧ (lookupApp s.permissions a = none → check_permission s a p = false) := by
  refine ⟨?_, ?_, ?_⟩
  · rcases hlook : lookupApp s.permissions a with _ | r
    · simp [grant_permission, check_permission, hlook, lookupApp_append_of_none hlook,
        setApp_append_of_none hlook, lookupApp_setApp]
    · by_cases hp : p ∈ r.granted
      · simp [grant_permission, check_permission, hlook, hp]
      · simp [grant_permission, check_permission, hlook, hp, lookupApp_setApp]
  · intro hnd
    rcases hlook : lookupApp s.permissions a with _ | r
    · simp [revoke_permission, check_permission, hlook]
    · by_cases hp : p ∈ r.granted
      · simp [revoke_permission, check_permission, hlook, hp, lookupApp_setApp,
          not_mem_removeFirst (hnd r hlook)]
      · simp [revoke_permission, check_permission, hlook, hp]
  · intro h
    simp [check_permission, h]

/-- Witness for C9 (amended) at a concrete state. -/
theorem grant_revoke_check_roundtrip_witness :
    (∀ r, lookupApp ([("app1", ⟨"App One", ["motor_intent"]⟩)] :
        List (String × AppRecord)) "app1" = some r → r.granted.Nodup)
    ∧ check_permission
        (revoke_permission ⟨[("app1", ⟨"App One", ["motor_intent"]⟩)], []⟩
          "app1" "motor_intent") "app1" "motor_intent" = false
    ∧ lookupApp ([] : List (String × AppRecord)) "zzz" = none
    ∧ check_permission ⟨[], []⟩ "zzz" "motor_intent" = false
    ∧ check_permission (grant_permission ⟨[], []⟩ "app2" "App Two" "focus_level")
        "app2" "focus_level" = true := by
  have hnd : ∀ r, lookupApp ([("app1", ⟨"App One", ["motor_intent"]⟩)] :
      List (String × AppRecord)) "app1" = some r → r.granted.Nodup := by
    intro r hr
    rw [show lookupApp ([("app1", ⟨"App One", ["motor_intent"]⟩)] :
        List (String × AppRecord)) "app1" =
        some (⟨"App One", ["motor_intent"]⟩ : AppRecord) from rfl] at hr
    injection hr with h
    subst h
    decide
  refine ⟨hnd, ?_, rfl, ?_, ?_⟩
  · exact (grant_revoke_check_roundtrip ⟨[("app1", ⟨"App One", ["motor_intent"]⟩)], []⟩
      "app1" "unused" "motor_intent").2.1 hnd
  · exact (grant_revoke_check_roundtrip ⟨[], []⟩ "zzz" "unused" "motor_intent").2.2 rfl
  · exact (grant_revoke_check_roundtrip ⟨[], []⟩ "app2" "App Two" "focus_level").1

/--
C1: `filter_data` obeys the exact three-step precedence: with no permission
record the result is only the motor-intent flag; otherwise fields are added
independently per granted permission (`motor_intent` contributes
`motor_intent` and `beta`, `focus_level` contributes `beta_alpha_ratio`,
`emotional_state` contributes `theta` and `alpha`); and a granted
`full_spectrum` discards the additive result and returns the whole
unfiltered input.
-/
theorem filter_data_precedence (s : GateState) (a : String) (d : DataMap) (i : String) :
    (lookupApp s.permissions a = none →
      filter_data s a d i = [("motor_intent", if i = "intentional" then 1 else 0)])
    ∧ ∀ r, lookupApp s.permissions a = some r →
        ("full_spectrum" ∈ r.granted → filter_data s a d i = d)
        ∧ ("full_spectrum" ∉ r.granted →
          filter_data s a d i =
            (if "motor_intent" ∈ r.granted then
              [("motor_intent", if i = "intentional" then 1 else 0),
               ("beta", dataGet d "beta" 0)] else [])
            ++ (if "focus_level" ∈ r.granted then
              [("beta_alpha_ratio", dataGet d "beta_alpha_ratio" 0)] else [])
            ++ (if "emotional_state" ∈ r.granted then
              [("theta", dataGet d "theta" 0), ("alpha", dataGet d "alpha" 0)]
             else [])) := by
  refine ⟨fun h => by simp [filter_data, h], fun r hr =>
    ⟨fun hfs => by simp [filter_data, hr, hfs], fun hfs => ?_⟩⟩
  by_cases h1 : "motor_intent" ∈ r.granted <;>
    by_cases h2 : "focus_level" ∈ r.granted <;>
    by_cases h3 : "emotional_state" ∈ r.granted <;>
    simp [filter_data, hr, hfs, h1, h2, h3, dictSet]

/-- Witness for C1 at a concrete state and data map. -/
theorem filter_data_precedence_witness :
    lookupApp ([("app1", ⟨"App One", ["motor_intent", "emotional_state"]⟩)] :
        List (String × AppRecord)) "app1" =
      some ⟨"App One", ["motor_intent", "emotional_state"]⟩
    ∧ "full_spectrum" ∉ (["motor_intent", "emotional_state"] : List String)
    ∧ filter_data ⟨[("app1", ⟨"App One", ["motor_intent", "emotional_state"]⟩)], []⟩
        "app1" [("beta", 7), ("theta", 3), ("alpha", 2)] "intentional" =
      [("motor_intent", 1), ("beta", 7), ("theta", 3), ("alpha", 2)] := by
  refine ⟨rfl, by decide, ?_⟩
  have h := ((filter_data_precedence
      ⟨[("app1", ⟨"App One", ["motor_intent", "emotional_state"]⟩)], []⟩
      "app1" [("beta", 7), ("theta", 3), ("alpha", 2)] "intentional").2
      ⟨"App One", ["motor_intent", "emotional_state"]⟩ rfl).2 (by decide)
  rw [h]
  decide

/--
C10: `filter_data` is read-only.  The state-threaded call returns the gate
state unchanged, the returned map is the pure function of the inputs, and
the result does not depend on the audit log at all.  (The input data map is
unchanged by construction in the value-semantics embedding.)
-/
theorem filter_data_read_only (s : GateState) (a : String) (d : DataMap) (i : String) :
    (filter_data_method s a d i).2 = s
    ∧ (filter_data_method s a d i).1 = filter_data s a d i
    ∧ ∀ log1 log2 : List AuditEntry,
        filter_data ⟨s.permissions, log1⟩ a d i = filter_data ⟨s.permissions, log2⟩ a d i :=
  ⟨rfl, rfl, fun _ _ => rfl⟩

/--
C5: `detect_threats` returns exactly the alerts of the rules whose
conditions hold, over three independent non-exclusive rules; in particular
requesting exactly `emotional_state` at frequency 1 yields exactly one
critical `emotional_surveillance` alert, requesting `full_spectrum` at
frequency 15 yields exactly one high and one medium alert, every returned
alert has `mitigated = false`, and the returned alerts are appended to the
threat log.
-/
theorem detect_threats_rules (log : List Threat) (a : String) (req : List String)
    (f : ℤ) :
    (detect_threats log a req f).1 =
      (if "full_spectrum" ∈ req then
        [⟨"excessive_permissions", "high",
          "App " ++ a ++ " requesting full neural spectrum access", a, false⟩] else [])
      ++ (if f > 10 then
        [⟨"data_harvesting", "medium",
          "Unusual request frequency: " ++ toString f ++ "/sec", a, false⟩] else [])
      ++ (if "emotional_state" ∈ req ∧ "motor_intent" ∉ req then
        [⟨"emotional_surveillance", "critical",
          "App requesting emotional data without primary functionality need",
          a, false⟩] else [])
    ∧ (detect_threats log a ["emotional_state"] 1).1 =
        [⟨"emotional_surveillance", "critical",
          "App requesting emotional data without primary functionality need",
          a, false⟩]
    ∧ (detect_threats log a ["full_spectrum"] 15).1 =
        [⟨"excessive_permissions", "high",
          "App " ++ a ++ " requesting full neural spectrum access", a, false⟩,
         ⟨"data_harvesting", "medium",
          "Unusual request frequency: " ++ toString (15 : ℤ) ++ "/sec", a, false⟩]
    ∧ (∀ t ∈ (detect_threats log a req f).1, t.mitigated = false)
    ∧ (detect_threats log a req f).2 = log ++ (detect_threats log a req f).1 := by
  refine ⟨?_, by simp [detect_threats], by simp [detect_threats],
    detect_threats_mitigated_false log a req f, rfl⟩
  by_cases h1 : "full_spectrum" ∈ req <;> by_cases h2 : f > 10 <;>
    by_cases h3 : "emotional_state" ∈ req ∧ "motor_intent" ∉ req <;>
    simp [detect_threats, h1, h2, h3]

set_option maxHeartbeats 3200000 in
/--
C2: the rule-based classifier accumulates the integer score of the seven
fixed conditions (with epsilon-stabilized ratio denominators) and decides:
score at least 2 gives `intentional` with confidence
`min(0.9, 0.5 + 0.1 * score)`; score at most -2 gives `subconscious` with
confidence `min(0.9, 0.5 + 0.1 * |score|)`; otherwise `neutral` with
confidence exactly 0.6.
-/
theorem rule_based_classify_decision (f : DataMap) :
    (rule_based_classify f).1 =
      (if 2 ≤ ruleScore f then "intentional"
       else if ruleScore f ≤ -2 then "subconscious" else "neutral")
    ∧ (rule_based_classify f).2.1 =
      (if 2 ≤ ruleScore f then min (9/10 : ℚ) (1/2 + (ruleScore f : ℚ) * (1/10))
       else if ruleScore f ≤ -2 then
         min (9/10 : ℚ) (1/2 + (((ruleScore f).natAbs : ℕ) : ℚ) * (1/10))
       else 3/5) := by
  by_cases h1 : dataGet f "beta" 0 > 15 <;>
    by_cases h2 : dataGet f "beta" 0 / (dataGet f "alpha" 0 + ratio_eps) > 3/2 <;>
    by_cases h3 : dataGet f "gamma" 0 > 10 ∧ dataGet f "gamma" 0 < 30 <;>
    by_cases h4 : dataGet f "theta" 0 > 20 <;>
    by_cases h5 : dataGet f "gamma" 0 > 40 <;>
    by_cases h6 : dataGet f "theta" 0 / (dataGet f "alpha" 0 + ratio_eps) > 1 <;>
    by_cases h7 : dataGet f "beta" 0 < 10 <;>
    simp [rule_based_classify, ruleScore, h1, h2, h3, h4, h5, h6, h7]

/-- Witness for C5: mitigated is false on a concrete returned alert. -/
theorem detect_threats_rules_witness :
    (⟨"excessive_permissions", "high",
      "App app1 requesting full neural spectrum access", "app1", false⟩ : Threat)
      ∈ (detect_threats [] "app1" ["full_spectrum"] 1).1
    ∧ (⟨"excessive_permissions", "high",
      "App app1 requesting full neural spectrum access", "app1", false⟩ :
        Threat).mitigated = false :=
  ⟨by decide,
    (detect_threats_rules [] "app1" ["full_spectrum"] 1).2.2.2.1 _ (by decide)⟩

/-- The band loop of `privatize_frequency_bands` maps the `i`-th band power
`p` to `max 0 (p + draw i)`. -/
theorem privatizeList_eq_enumFrom (lap : ℚ → ℕ → ℚ) (scale : ℚ) (l : DataMap)
    (i : ℕ) :
    privatizeList lap scale l i =
      (List.enumFrom i l).map (fun p => (p.2.1, max 0 (p.2.2 + lap scale p.1))) := by
  induction l generalizing i with
  | nil => rfl
  | cons hd tl ih =>
      obtain ⟨n, q⟩ := hd
      simp [privatizeList, List.enumFrom, ih]

/-- Every value produced by the band loop is clamped at 0. -/
theorem privatizeList_nonneg (lap : ℚ → ℕ → ℚ) (scale : ℚ) (l : DataMap) (i : ℕ) :
    ∀ kv ∈ privatizeList lap scale l i, 0 ≤ kv.2 := by
  induction l generalizing i with
  | nil => simp [privatizeList]
  | cons hd tl ih =>
      obtain ⟨n, q⟩ := hd
      intro kv hkv
      simp only [privatizeList, List.mem_cons] at hkv
      rcases hkv with rfl | hkv
      · exact le_max_left 0 _
      · exact ih (i + 1) kv hkv

/--
C6: for every band map, privacy level and noise realization,
`privatize_frequency_bands` maps the `i`-th band power `p` to
`max 0 (p + noise_i)` where `noise_i` is the `i`-th Laplace draw at scale
`1 / (baseEpsilon * (privacyLevel + 0.1))`; consequently every output band
power is nonnegative regardless of the sign of the injected noise.
-/
theorem privatize_frequency_bands_spec (ε pl : ℚ) (lap : ℚ → ℕ → ℚ) (bs : DataMap) :
    privatize_frequency_bands ε lap bs pl =
      (List.enumFrom 0 bs).map
        (fun p => (p.2.1, max 0 (p.2.2 + lap (1 / (ε * (pl + 1/10))) p.1)))
    ∧ ∀ kv ∈ privatize_frequency_bands ε lap bs pl, 0 ≤ kv.2 :=
  ⟨privatizeList_eq_enumFrom lap (1 / (ε * (pl + 1/10))) bs 0,
   privatizeList_nonneg lap (1 / (ε * (pl + 1/10))) bs 0⟩

/-- Witness for C6 at a concrete band map and a negative noise draw. -/
theorem privatize_frequency_bands_spec_witness :
    privatize_frequency_bands 1 (fun _ _ => -5) [("beta", 2)] (1/2) = [("beta", 0)]
    ∧ (("beta", (0 : ℚ)) ∈ privatize_frequency_bands 1 (fun _ _ => -5) [("beta", 2)] (1/2)
        → (0 : ℚ) ≤ ("beta", (0 : ℚ)).2)
    ∧ (0 : ℚ) ≤ ("beta", (0 : ℚ)).2 := by
  have hev : privatize_frequency_bands 1 (fun _ _ => -5) [("beta", 2)] (1/2) =
      [("beta", 0)] := by
    norm_num [privatize_frequency_bands, privatizeList]
  exact ⟨hev,
    (privatize_frequency_bands_spec 1 (1/2) (fun _ _ => -5) [("beta", 2)]).2
      ("beta", (0 : ℚ)),
    (privatize_frequency_bands_spec 1 (1/2) (fun _ _ => -5) [("beta", 2)]).2
      ("beta", (0 : ℚ)) (by rw [hev]; exact List.mem_singleton.mpr rfl)⟩

/--
C3 counterexample: `apply_privacy` (with its default field set) adds the
Laplace draw with no clamping (`privacy_engine.py` line 103), so the noise
realization that draws -1 on the field `x` with input value 0 produces the
output value -1, which is negative — the claimed nonnegativity invariant
fails for `apply_privacy`.
-/
theorem apply_privacy_unclamped_counterexample :
    dataGet (apply_privacy 1 (fun _ _ => -1) [("x", 0)] (1/2) none) "x" 0 < 0 := by
  norm_num [apply_privacy, applyFields, containsKey, dictAdd, dataGet]

/--
C3 (amended): only `privatize_frequency_bands` clamps: every value it
produces is nonnegative, for every input map, every privacy level and every
noise realization.  `apply_privacy` adds its per-field noise draw without
clamping, so the invariant does not extend to it.
-/
theorem privatize_frequency_bands_nonneg (ε pl : ℚ) (lap : ℚ → ℕ → ℚ)
    (bs : DataMap) :
    ∀ kv ∈ privatize_frequency_bands ε lap bs pl, 0 ≤ kv.2 :=
  privatizeList_nonneg lap (1 / (ε * (pl + 1/10))) bs 0

/-- Witness for C3 (amended) at a concrete band map and noise draw. -/
theorem privatize_frequency_bands_nonneg_witness :
    privatize_frequency_bands 1 (fun _ _ => -7) [("delta", 5)] (3/4) = [("delta", 0)]
    ∧ (0 : ℚ) ≤ ("delta", (0 : ℚ)).2 := by
  have hev : privatize_frequency_bands 1 (fun _ _ => -7) [("delta", 5)] (3/4) =
      [("delta", 0)] := by
    norm_num [privatize_frequency_bands, privatizeList]
  exact ⟨hev,
    privatize_frequency_bands_nonneg 1 (3/4) (fun _ _ => -7) [("delta", 5)]
      ("delta", (0 : ℚ)) (by rw [hev]; exact List.mem_singleton.mpr rfl)⟩

/--
C4 counterexample: a raw-signal input with mismatched per-channel lengths
(channel `C3` has 1 sample, channel `C4` has 2) passes
`EEGSignalInput.validate_channels` — the only boundary validation — so it
is not rejected with a named validation error before the pipeline runs.
-/
theorem validate_channels_counterexample :
    (([(1 : ℚ)] : List ℚ).length ≠ ([1, 2] : List ℚ).length)
    ∧ validate_channels [("C3", [1]), ("C4", [1, 2])] =
        Except.ok [("C3", [1]), ("C4", [1, 2])] :=
  ⟨by decide, rfl⟩

/--
C4 (amended): the only raw-signal validation at the pipeline boundary is
the empty-channel-map check: an empty channel map is rejected with the
named error `At least one channel required`, and every non-empty channel
map — mismatched per-channel lengths included — is accepted unchanged.
-/
theorem validate_channels_empty_only (v : List (String × List ℚ)) :
    (v = [] → validate_channels v = Except.error "At least one channel required")
    ∧ (v ≠ [] → validate_channels v = Except.ok v) := by
  constructor <;> intro h <;> simp [validate_channels, h]

/-- Witness for C4 (amended) at a concrete channel map. -/
theorem validate_channels_empty_only_witness :
    (([("C3", [1])] : List (String × List ℚ)) ≠ [])
    ∧ validate_channels [("C3", [1])] = Except.ok [("C3", [1])] :=
  ⟨by decide, (validate_channels_empty_only [("C3", [1])]).2 (by decide)⟩

/-- Squared DFT magnitudes are nonnegative. -/
theorem dftPower_nonneg (data : List ℝ) (k : ℕ) : 0 ≤ dftPower data k :=
  Complex.normSq_nonneg _

/-- A per-channel band contribution, when present, is a mean of
nonnegative spectral powers and hence nonnegative. -/
theorem channelBandPower_nonneg {sr : ℚ} {data : List ℝ} {low high : ℚ} {x : ℝ}
    (h : channelBandPower sr data low high = some x) : 0 ≤ x := by
  unfold channelBandPower at h
  split at h
  · injection h with h
    rw [← h]
    exact div_nonneg
      (Finset.sum_nonneg fun k _ => dftPower_nonneg data k) (Nat.cast_nonneg _)
  · exact absurd h (by simp)

/--
C8: for every raw signal with uniform per-channel sample length and a
positive sampling rate, every one of the five canonical bands receives a
nonnegative power from `extract_frequency_bands`, and a band whose
inclusive frequency range contains no spectral bin of the input yields
power exactly 0 rather than an error.
-/
theorem extract_frequency_bands_nonneg (sr : ℚ) (channels : List (List ℝ)) (n : ℕ)
    (hlen : ∀ c ∈ channels, c.length = n) (hsr : 0 < sr) :
    (∀ name low high, (name, low, high) ∈ bands →
      0 ≤ extract_band sr channels low high)
    ∧ (∀ name low high, (name, low, high) ∈ bands → bandIdx n sr low high = ∅ →
      extract_band sr channels low high = 0) := by
  constructor
  · intro name low high _
    have hp : ∀ x ∈ channels.filterMap (fun c => channelBandPower sr c low high),
        (0 : ℝ) ≤ x := by
      intro x hx
      rcases List.mem_filterMap.mp hx with ⟨c, _, hc⟩
      exact channelBandPower_nonneg hc
    simp only [extract_band]
    split
    · exact le_refl 0
    · exact div_nonneg (List.sum_nonneg hp) (Nat.cast_nonneg _)
  · intro name low high _ hidx
    have hnil : channels.filterMap (fun c => channelBandPower sr c low high) = [] := by
      rw [List.filterMap_eq_nil_iff]
      intro c hc
      simp only [channelBandPower, hlen c hc, hidx]
      simp [Finset.not_nonempty_empty]
    simp [extract_band, hnil]

/-- Witness for C8 at a concrete two-channel two-sample signal at 256 Hz:
the delta band (0.5-4 Hz) has no spectral bin there and yields power 0, and
the beta band power is nonnegative. -/
theorem extract_frequency_bands_nonneg_witness :
    (∀ c ∈ ([[1, 0], [0, 1]] : List (List ℝ)), c.length = 2)
    ∧ (0 : ℚ) < 256
    ∧ ("beta", (13 : ℚ), (30 : ℚ)) ∈ bands
    ∧ ("delta", (1/2 : ℚ), (4 : ℚ)) ∈ bands
    ∧ bandIdx 2 256 (1/2) 4 = ∅
    ∧ 0 ≤ extract_band 256 [[1, 0], [0, 1]] 13 30
    ∧ extract_band 256 [[1, 0], [0, 1]] (1/2) 4 = 0 := by
  have hlen : ∀ c ∈ ([[1, 0], [0, 1]] : List (List ℝ)), c.length = 2 := by simp
  have hempty : bandIdx 2 256 (1/2) 4 = ∅ := by
    rw [bandIdx, Finset.filter_eq_empty_iff]
    intro k hk
    fin_cases hk <;> norm_num [fftfreq]
  have h := extract_frequency_bands_nonneg 256 [[1, 0], [0, 1]] 2 hlen (by norm_num)
  exact ⟨hlen, by norm_num, by norm_num [bands], by norm_num [bands], hempty,
    h.1 "beta" 13 30 (by norm_num [bands]),
    h.2 "delta" (1/2) 4 (by norm_num [bands]) hempty⟩

end NeuroGuard
